import Mathlib

/-!
Verification development for the CausalImpact pipeline described by the
repository documentation.  The repository ships only the notebook
GettingStarted.ipynb, which calls into the causalimpactjs package; the
package implementation itself is not part of the sources.  The core data
model and operations below are therefore modelled from the specification
text, faithful to its words, and the notebook is used as the reference
caller.  All numeric values are embedded as rationals so that every
definition is executable and every concrete instance can be evaluated.
-/

namespace CISpec

/-- Modelled from the spec: the error taxonomy of section 7 of the spec
(ValidationError, SpecificationError, ConvergenceError, SamplingError,
NumericalInstabilityError); the implementing package is absent from the
sources. -/
inductive CIError where
  | validation
  | specification
  | convergence
  | sampling
  | numericalInstability
deriving DecidableEq, Repr

/-- Modelled from the spec: a period is an inclusive [start, stop] pair of
series indices, as used by the notebook (pre_period = [0,69],
post_period = [71,99]). -/
structure Period where
  start : Int
  stop : Int
deriving DecidableEq, Repr

/-- Modelled from the spec: the input to the entry point, a response series
that may contain missing values and covariate series that must be fully
observed. -/
structure InputData where
  response : List (Option ℚ)
  covariates : List (List (Option ℚ))
deriving DecidableEq, Repr

/-- Modelled from the spec: the prepared arrays produced by the Data
Preparer; the response is kept as-is including missing (censored)
entries. -/
structure Prepared where
  response : List (Option ℚ)
  covariates : List (List (Option ℚ))
  pre : Period
  post : Period
deriving DecidableEq, Repr

/-- Period validity check: both periods non-empty, pre precedes post
without overlap, and both inside the series extent. -/
def periodsOk (n : ℕ) (pre post : Period) : Bool :=
  decide (0 ≤ pre.start) && decide (pre.start ≤ pre.stop) &&
  decide (pre.stop < post.start) && decide (post.start ≤ post.stop) &&
  decide (post.stop < (n : Int))

/-- Every covariate series must be fully observed (no missing value). -/
def covariatesComplete (covs : List (List (Option ℚ))) : Bool :=
  covs.all (fun c => c.all (fun v => v.isSome))

/-- Every covariate series must be aligned with the response length. -/
def alignedWith (n : ℕ) (covs : List (List (Option ℚ))) : Bool :=
  covs.all (fun c => c.length == n)

/-- Modelled from the spec: input validation of the Data Preparer, run
before any model fitting; any malformed input yields ValidationError. -/
def validate (input : InputData) (pre post : Period) : Except CIError Prepared :=
  if periodsOk input.response.length pre post
      && covariatesComplete input.covariates
      && alignedWith input.response.length input.covariates
  then .ok ⟨input.response, input.covariates, pre, post⟩
  else .error .validation

/-- Predicate: the two inclusive periods intersect. -/
def overlaps (pre post : Period) : Prop :=
  max pre.start post.start ≤ min pre.stop post.stop

/-- Predicate: an inclusive period holds no index. -/
def emptyPeriod (p : Period) : Prop := p.stop < p.start

/-- Predicate: some period boundary falls outside the series extent. -/
def outOfBounds (n : ℕ) (pre post : Period) : Prop :=
  pre.start < 0 ∨ (n : Int) ≤ pre.stop ∨ post.start < 0 ∨ (n : Int) ≤ post.stop

/-- Modelled from the spec: the ModelSpec configuration surface of
section 6; the implementing package is absent from the sources. -/
structure ModelSpec where
  niter : Int
  standardize_data : Bool
  prior_level_sd : ℚ
  nseasons : Int
  season_duration : Int
  dynamic_regression : Bool
  alpha : ℚ
deriving DecidableEq, Repr

/-- Modelled from the spec: the defaults taken when no configuration is
supplied. -/
def defaultModelSpec : ModelSpec :=
  ⟨1000, true, 1/100, 1, 1, false, 1/20⟩

/-- Modelled from the spec: per-field range validation of ModelSpec. -/
def specFieldsValid (s : ModelSpec) : Bool :=
  decide (0 < s.niter) && decide (0 < s.prior_level_sd) &&
  decide (1 ≤ s.nseasons) && decide (0 < s.season_duration) &&
  decide (0 < s.alpha) && decide (s.alpha < 1)

/-- Modelled from the spec: fitted variance parameters of the local-level
state-space model (level disturbance variance and observation noise
variance). -/
structure Params where
  q : ℚ
  r : ℚ
deriving DecidableEq, Repr

/-- Modelled from the spec: default optimizer starting point, from the
default prior level standard deviation. -/
def initParams : Params := ⟨1/100, 1⟩

/-- Modelled from the spec: the perturbed restart point used for the single
retry after a failed optimization. -/
def perturbParams (p : Params) : Params := ⟨p.q + 1/10, p.r + 1/10⟩

/-- Modelled from the spec: maximum-likelihood fitting with one bounded
retry — if the optimizer fails to converge on the initial point it is
restarted once from a perturbed point, after which failure is fatal. -/
def mleFit {α : Type} (optimize : α → Option α) (perturb : α → α) (init : α) :
    Except CIError α :=
  match optimize init with
  | some p => .ok p
  | none =>
    match optimize (perturb init) with
    | some p => .ok p
    | none => .error .convergence

/-- Modelled from the spec: an MCMC draw with a bounded retry budget —
attempts with non-finite likelihood (tryDraw returns none) are rejected
and re-drawn until the budget is exhausted, then the run fails with
SamplingError. -/
def mcmcRetry (tryDraw : ℕ → Option ℚ) : ℕ → ℕ → Except CIError ℚ
  | _, 0 => .error .sampling
  | attempt, fuel + 1 =>
    match tryDraw attempt with
    | some v => .ok v
    | none => mcmcRetry tryDraw (attempt + 1) fuel

/-- Kalman filter state: latent level mean and variance at one index. -/
structure KState where
  m : ℚ
  P : ℚ
deriving DecidableEq, Repr

/-- Modelled from the spec: one step of the local-level Kalman filter.
The predict step always runs; the update step runs only when the
observation is present — a missing observation skips the update and keeps
the predicted state. -/
def kstep (p : Params) (s : KState) (obs : Option ℚ) : KState :=
  let mPred := s.m
  let PPred := s.P + p.q
  match obs with
  | none => ⟨mPred, PPred⟩
  | some y =>
    let K := PPred / (PPred + p.r)
    ⟨mPred + K * (y - mPred), (1 - K) * PPred⟩

/-- Modelled from the spec: the forward Kalman filtering pass over a
series of optionally observed values. -/
def kfilter (p : Params) : KState → List (Option ℚ) → List KState
  | _, [] => []
  | s, o :: rest =>
    let s2 := kstep p s o
    s2 :: kfilter p s2 rest

/-- Modelled from the spec: the backward Rauch-Tung-Striebel smoothing
pass over the filtered states. -/
def ksmooth (p : Params) : List KState → List KState
  | [] => []
  | s :: rest =>
    match ksmooth p rest with
    | [] => [s]
    | s2 :: tail =>
      let PPred := s.P + p.q
      let C := s.P / PPred
      ⟨s.m + C * (s2.m - s.m), s.P + C * C * (s2.P - PPred)⟩ :: s2 :: tail

/-- Mask a fully observed response: indices at or past postStart are
treated as missing, indices before it keep their observed value. -/
def maskPost (resp : List ℚ) (postStart : ℕ) : List (Option ℚ) :=
  (List.range resp.length).map (fun i => if i < postStart then resp[i]? else none)

/-- The smoothed counterfactual predictive means of the whole series under
one fitted parameter set, with the post period treated as missing. -/
def smoothedMeans (p : Params) (init : KState) (obs : List (Option ℚ)) : List ℚ :=
  (ksmooth p (kfilter p init obs)).map (fun s => s.m)

/-- Pointwise effects: actual minus predicted at each index. -/
def pointEffects (actual predicted : List ℚ) : List ℚ :=
  List.zipWith (fun a b => a - b) actual predicted

/-- Running (cumulative) sums of a list. -/
def cumsum : List ℚ → List ℚ
  | [] => []
  | x :: xs => x :: (cumsum xs).map (fun y => x + y)

/-- Cumulative effects: running sums of the pointwise effects. -/
def cumEffects (actual predicted : List ℚ) : List ℚ :=
  cumsum (pointEffects actual predicted)

/-- Modelled from the spec: per-draw worker seeding — each draw owns a
random stream seeded deterministically from the run-level seed plus the
draw index. -/
def seedFor (runSeed i : ℕ) : ℕ := runSeed + i

/-- Modelled from the spec: deterministic aggregation — draw results are
indexed and merged in index order regardless of completion order. -/
def mergeByIndex {α : Type} (n : ℕ) (results : List (ℕ × α)) : List (Option α) :=
  (List.range n).map (fun i => results.lookup i)

/-- Run the per-draw simulations in the given completion order, tagging
each result with its draw index. -/
def runDraws {α : Type} (g : ℕ → α) (order : List ℕ) : List (ℕ × α) :=
  order.map (fun i => (i, g i))

/-- Aggregate n indexed draws produced in an arbitrary completion order. -/
def aggregateDraws {α : Type} (n : ℕ) (g : ℕ → α) (order : List ℕ) : List (Option α) :=
  mergeByIndex n (runDraws g order)

/-- Modelled from the spec: the sampled pipeline — per-draw simulators
seeded from the run seed plus draw index, aggregated in index order. -/
def runSampled {α : Type} (sim : ℕ → α) (runSeed n : ℕ) (order : List ℕ) :
    List (Option α) :=
  aggregateDraws n (fun i => sim (seedFor runSeed i)) order

/-- Modelled from the spec: the recorded standardization transform — a
pre-period mean together with the scale used for rescaling. -/
structure ScaleTransform where
  mean : ℚ
  sd : ℚ
deriving DecidableEq, Repr

/-- Mean of the pre-period observations. -/
def preMean (pre : List ℚ) : ℚ := pre.sum / pre.length

/-- Variance of the pre-period observations (the recorded scale squares to
this value). -/
def preVar (pre : List ℚ) : ℚ :=
  (pre.map (fun x => (x - preMean pre) * (x - preMean pre))).sum / pre.length

/-- Modelled from the spec: standardization — subtract the recorded
pre-period mean and divide by the recorded scale. -/
def standardizeWith (t : ScaleTransform) (xs : List ℚ) : List ℚ :=
  xs.map (fun x => (x - t.mean) / t.sd)

/-- Modelled from the spec: the recorded inverse transform — multiply by
the recorded scale and add back the recorded mean. -/
def unstandardizeWith (t : ScaleTransform) (zs : List ℚ) : List ℚ :=
  zs.map (fun z => z * t.sd + t.mean)

/-- Draws sorted ascending, for empirical quantiles. -/
def sortedDraws (l : List ℚ) : List ℚ := List.insertionSort (fun a b => a ≤ b) l

/-- Order-statistic index of the q-th empirical quantile among n draws. -/
def quantileIdx (n : ℕ) (qv : ℚ) : ℕ :=
  min (n - 1) (Int.toNat ⌊qv * ((n - 1 : ℕ) : ℚ)⌋)

/-- Modelled from the spec: the empirical q-th quantile of the draws. -/
def quantileOf (l : List ℚ) (qv : ℚ) : ℚ :=
  (sortedDraws l).getD (quantileIdx l.length qv) 0

/-- Lower bound of the two-sided credible interval at level 1 - alpha. -/
def credLower (l : List ℚ) (alpha : ℚ) : ℚ := quantileOf l (alpha / 2)

/-- Upper bound of the two-sided credible interval at level 1 - alpha. -/
def credUpper (l : List ℚ) (alpha : ℚ) : ℚ := quantileOf l (1 - alpha / 2)

/-- Width of the two-sided credible interval at level 1 - alpha. -/
def intervalWidth (l : List ℚ) (alpha : ℚ) : ℚ :=
  credUpper l alpha - credLower l alpha

/-- Modelled from the spec: the externally visible result — pointwise and
cumulative effect series. -/
structure EffectEstimate where
  point : List ℚ
  cumulative : List ℚ
deriving DecidableEq, Repr

/-- Modelled from the spec: effect aggregation under one fitted parameter
set — filter and smooth the masked series, then form pointwise and
cumulative effects of actual minus predicted. -/
def analyze (prep : Prepared) (pm : Params) : EffectEstimate :=
  let n := prep.response.length
  let masked := (List.range n).map
    (fun i => if (Int.ofNat i) < prep.post.start then prep.response.getD i none else none)
  let preds := smoothedMeans pm ⟨0, 1⟩ masked
  let actuals := prep.response.map (fun o => o.getD 0)
  let eff := pointEffects actuals preds
  ⟨eff, cumsum eff⟩

/-- Modelled from the spec: the full entry-point pipeline — validation
first, then maximum-likelihood fitting with one bounded retry, then effect
aggregation; no later stage runs when an earlier one fails. -/
def runCI (optimize : Params → Option Params) (input : InputData)
    (pre post : Period) : Except CIError EffectEstimate :=
  match validate input pre post with
  | .error e => .error e
  | .ok prep =>
    match mleFit optimize perturbParams initParams with
    | .error e => .error e
    | .ok pm => .ok (analyze prep pm)

/-- Claim C9: with no configuration supplied the ModelSpec fields default to
niter = 1000, standardize_data = true, prior_level_sd = 0.01, nseasons = 1,
season_duration = 1, dynamic_regression = false, alpha = 0.05, and each
field rejects exactly the values outside its stated range. -/
theorem modelSpecDefaultsAndRanges :
    (defaultModelSpec.niter = 1000 ∧ defaultModelSpec.standardize_data = true ∧
     defaultModelSpec.prior_level_sd = 1 / 100 ∧ defaultModelSpec.nseasons = 1 ∧
     defaultModelSpec.season_duration = 1 ∧
     defaultModelSpec.dynamic_regression = false ∧
     defaultModelSpec.alpha = 1 / 20) ∧
    ∀ s : ModelSpec, specFieldsValid s = true ↔
      (0 < s.niter ∧ 0 < s.prior_level_sd ∧ 1 ≤ s.nseasons ∧
       0 < s.season_duration ∧ 0 < s.alpha ∧ s.alpha < 1) := by
  constructor
  · exact ⟨rfl, rfl, rfl, rfl, rfl, rfl, rfl⟩
  · intro s
    simp [specFieldsValid, Bool.and_eq_true, decide_eq_true_eq, and_assoc]

/-- Claim C6: maximum-likelihood fitting is retried exactly once from a
perturbed start before ConvergenceError, MCMC draws with non-finite
likelihood are re-drawn within a bounded budget before SamplingError, and
no downstream computation proceeds on an unrecovered parameter set. -/
theorem estimatorRetryPolicy {α : Type} (optimize : α → Option α) (perturb : α → α)
    (init : α) (tryDraw : ℕ → Option ℚ) (fuel : ℕ) :
    (mleFit optimize perturb init = .error .convergence ↔
      optimize init = none ∧ optimize (perturb init) = none) ∧
    (∀ start, mcmcRetry tryDraw start fuel = .error .sampling ↔
      ∀ k, k < fuel → tryDraw (start + k) = none) ∧
    (∀ (β : Type) (next : α → Except CIError β) (e : CIError),
      mleFit optimize perturb init = .error e →
      (mleFit optimize perturb init >>= next) = .error e) := by
  refine ⟨?_, ?_, ?_⟩
  · cases h1 : optimize init with
    | some p => simp [mleFit, h1]
    | none =>
      cases h2 : optimize (perturb init) with
      | some p => simp [mleFit, h1, h2]
      | none => simp [mleFit, h1, h2]
  · intro start
    induction fuel generalizing start with
    | zero => simp [mcmcRetry]
    | succ f ih =>
      cases h : tryDraw start with
      | some v =>
        constructor
        · intro hc
          rw [mcmcRetry, h] at hc
          exact absurd hc (by simp)
        · intro hall
          have h0 := hall 0 (by omega)
          rw [Nat.add_zero, h] at h0
          exact absurd h0 (by simp)
      | none =>
        have hstep : mcmcRetry tryDraw start (f + 1) = mcmcRetry tryDraw (start + 1) f := by
          rw [mcmcRetry, h]
        rw [hstep, ih (start + 1)]
        constructor
        · intro hall k hk
          cases k with
          | zero => simpa using h
          | succ j =>
            have hj := hall j (by omega)
            rw [show start + (j + 1) = start + 1 + j by omega]
            exact hj
        · intro hall k hk
          have hk1 := hall (k + 1) (by omega)
          rw [show start + 1 + k = start + (k + 1) by omega]
          exact hk1
  · intro β next e h
    rw [h]
    rfl

/-- Claim C3: whenever the periods overlap, either period is empty (in
particular the pre-period holds no observation), or a boundary falls
outside the series extent, the entry point yields ValidationError for
every optimizer — it never reaches the fitting stage. -/
theorem invalidPeriodsRejected (optimize : Params → Option Params) (input : InputData)
    (pre post : Period)
    (h : overlaps pre post ∨ emptyPeriod pre ∨ emptyPeriod post ∨
      outOfBounds input.response.length pre post) :
    runCI optimize input pre post = .error .validation := by
  have hfalse : periodsOk input.response.length pre post = false := by
    rw [Bool.eq_false_iff]
    intro htrue
    simp only [periodsOk, Bool.and_eq_true, decide_eq_true_eq] at htrue
    simp only [overlaps, emptyPeriod, outOfBounds, max_le_iff, le_min_iff] at h
    omega
  have hval : validate input pre post = .error .validation := by
    simp [validate, hfalse]
  unfold runCI
  rw [hval]

/-- Claim C4: a missing value anywhere in a covariate series yields
ValidationError for every optimizer (fitting never runs), while missing
values in the response are accepted — validation succeeds on complete
covariates and valid periods, carrying the censored response through
unchanged. -/
theorem covariateMissingRejected (optimize : Params → Option Params)
    (input : InputData) (pre post : Period) :
    ((∃ c ∈ input.covariates, none ∈ c) →
      runCI optimize input pre post = .error .validation) ∧
    (periodsOk input.response.length pre post = true →
      covariatesComplete input.covariates = true →
      alignedWith input.response.length input.covariates = true →
      validate input pre post = .ok ⟨input.response, input.covariates, pre, post⟩) := by
  constructor
  · rintro ⟨c, hc, hnone⟩
    have hcc : covariatesComplete input.covariates = false := by
      rw [Bool.eq_false_iff]
      intro htrue
      rw [covariatesComplete, List.all_eq_true] at htrue
      have hcol := htrue c hc
      rw [List.all_eq_true] at hcol
      have hval := hcol none hnone
      exact absurd hval (by simp)
    have hval : validate input pre post = .error .validation := by
      simp [validate, hcc]
    unfold runCI
    rw [hval]
  · intro h1 h2 h3
    simp [validate, h1, h2, h3]

/-- The demonstration column of the notebook example: 100 observed
points. -/
def demoColumn : List (Option ℚ) := List.replicate 100 (some 1)

/-- The notebook-shaped input: a 100-point response with one covariate. -/
def demoInput : InputData := ⟨demoColumn, [demoColumn]⟩

/-- Claim C10: periods are inclusive [start, stop] pairs and the post
period need not start right after the pre period ends — with 100 points,
pre-period [0,69] and post-period [71,99] (index 70 in neither), validation
succeeds and the full run never yields ValidationError. -/
theorem gapBetweenPeriodsAccepted (optimize : Params → Option Params) :
    validate demoInput ⟨0, 69⟩ ⟨71, 99⟩ =
      .ok ⟨demoColumn, [demoColumn], ⟨0, 69⟩, ⟨71, 99⟩⟩ ∧
    runCI optimize demoInput ⟨0, 69⟩ ⟨71, 99⟩ ≠ .error .validation := by
  have hval : validate demoInput ⟨0, 69⟩ ⟨71, 99⟩ =
      .ok ⟨demoColumn, [demoColumn], ⟨0, 69⟩, ⟨71, 99⟩⟩ := by rfl
  refine ⟨hval, ?_⟩
  unfold runCI
  rw [hval]
  cases h1 : optimize initParams with
  | some p => simp [mleFit, h1]
  | none =>
    cases h2 : optimize (perturbParams initParams) with
    | some p => simp [mleFit, h1, h2]
    | none => simp [mleFit, h1, h2]

/-- Claim C1: at every post-period index the update step is skipped (the
step on a missing observation is the pure predict step), so the smoothed
counterfactual predictive means never depend on the actual post-period
response values: any two series agreeing on the pre-period produce the
same smoothed means once the post period is masked. -/
theorem kalmanPostIndependence (p : Params) (init : KState) (postStart : ℕ)
    (resp1 resp2 : List ℚ) (hlen : resp1.length = resp2.length)
    (hpre : ∀ i, i < postStart → resp1[i]? = resp2[i]?) :
    (∀ s : KState, kstep p s none = ⟨s.m, s.P + p.q⟩) ∧
    smoothedMeans p init (maskPost resp1 postStart) =
      smoothedMeans p init (maskPost resp2 postStart) := by
  constructor
  · intro s
    rfl
  · have hmask : maskPost resp1 postStart = maskPost resp2 postStart := by
      unfold maskPost
      rw [hlen]
      apply List.map_congr_left
      intro i hi
      by_cases hip : i < postStart
      · simp [hip, hpre i hip]
      · simp [hip]
    rw [hmask]

/-- Index formula for running sums: entry t of the cumulative list is the
sum of the first t + 1 entries of the input. -/
theorem cumsum_getElem (l : List ℚ) : ∀ t : ℕ,
    (cumsum l)[t]? = if t < l.length then some ((l.take (t + 1)).sum) else none := by
  induction l with
  | nil => intro t; simp [cumsum]
  | cons x xs ih =>
    intro t
    cases t with
    | zero => simp [cumsum]
    | succ t =>
      simp only [cumsum, List.getElem?_cons_succ, List.getElem?_map, ih t,
        List.length_cons, List.take_succ_cons, List.sum_cons]
      by_cases h : t < xs.length
      · have h2 : t + 1 < xs.length + 1 := by omega
        simp [h, h2]
      · have h2 : ¬(t + 1 < xs.length + 1) := by omega
        simp [h, h2]

/-- Claim C2: the cumulative effect at post-period position t is the
running sum of the pointwise effects through t, and at the last position
it equals the sum of all pointwise effects (exactly, in the rational
embedding). -/
theorem cumulativeIsRunningSum (actual predicted : List ℚ) :
    (∀ t, t < (pointEffects actual predicted).length →
      (cumEffects actual predicted)[t]? =
        some (((pointEffects actual predicted).take (t + 1)).sum)) ∧
    (pointEffects actual predicted ≠ [] →
      (cumEffects actual predicted)[(pointEffects actual predicted).length - 1]? =
        some (pointEffects actual predicted).sum) := by
  constructor
  · intro t ht
    rw [cumEffects, cumsum_getElem]
    simp [ht]
  · intro hne
    have hpos : 0 < (pointEffects actual predicted).length :=
      List.length_pos.mpr hne
    rw [cumEffects, cumsum_getElem]
    have hlt : (pointEffects actual predicted).length - 1 <
        (pointEffects actual predicted).length := by omega
    rw [if_pos hlt]
    congr 1
    rw [show (pointEffects actual predicted).length - 1 + 1 =
      (pointEffects actual predicted).length by omega]
    rw [List.take_length]

/-- Looking up a draw index in the tagged results of any completion order
containing it returns that index's own result. -/
theorem lookup_runDraws {α : Type} (g : ℕ → α) :
    ∀ (order : List ℕ) (i : ℕ), i ∈ order →
      (runDraws g order).lookup i = some (g i) := by
  intro order
  induction order with
  | nil => intro i hi; cases hi
  | cons j rest ih =>
    intro i hi
    have hstep : runDraws g (j :: rest) = (j, g j) :: runDraws g rest := rfl
    rw [hstep]
    by_cases hij : i = j
    · subst hij
      simp [List.lookup]
    · have hmem : i ∈ rest := by
        rcases List.mem_cons.mp hi with hcontra | hmem
        · exact absurd hcontra hij
        · exact hmem
      have hbeq : (i == j) = false := beq_eq_false_iff_ne.mpr hij
      simp only [List.lookup, hbeq]
      exact ih i hmem

/-- Claim C5: under a fixed run seed the sampled pipeline is deterministic —
any two completion orders of the indexed draws aggregate to the same
output, namely the index-ordered list of per-draw results with each draw
seeded from the run seed plus its index. -/
theorem pipelineDeterministic {α : Type} (sim : ℕ → α) (runSeed n : ℕ)
    (o1 o2 : List ℕ) (h1 : List.Perm o1 (List.range n))
    (h2 : List.Perm o2 (List.range n)) :
    runSampled sim runSeed n o1 = runSampled sim runSeed n o2 ∧
    runSampled sim runSeed n o1 =
      (List.range n).map (fun i => some (sim (seedFor runSeed i))) := by
  have key : ∀ o : List ℕ, List.Perm o (List.range n) →
      runSampled sim runSeed n o =
        (List.range n).map (fun i => some (sim (seedFor runSeed i))) := by
    intro o ho
    unfold runSampled aggregateDraws mergeByIndex
    apply List.map_congr_left
    intro i hi
    exact lookup_runDraws _ o i (ho.mem_iff.mpr hi)
  exact ⟨(key o1 h1).trans (key o2 h2).symm, key o1 h1⟩

/-- Claim C7: when the recorded transform carries the pre-period mean and
a scale squaring to the pre-period variance, applying the recorded inverse
transform to the standardized series recovers the original values
exactly. -/
theorem standardizeRoundTrip (pre xs : List ℚ) (t : ScaleTransform)
    (hm : t.mean = preMean pre) (hv : t.sd * t.sd = preVar pre)
    (hnz : t.sd ≠ 0) :
    unstandardizeWith t (standardizeWith t xs) = xs := by
  unfold unstandardizeWith standardizeWith
  rw [List.map_map]
  have hfun : ((fun z => z * t.sd + t.mean) ∘ fun x => (x - t.mean) / t.sd) = id := by
    funext x
    simp only [Function.comp_apply, id_eq]
    rw [div_mul_cancel₀ _ hnz, sub_add_cancel]
  rw [hfun, List.map_id]

/-- Sorting the draws yields an ascending list. -/
theorem sortedDraws_sorted (l : List ℚ) :
    (sortedDraws l).Sorted (fun a b => a ≤ b) :=
  List.sorted_insertionSort _ l

/-- Sorting preserves the number of draws. -/
theorem sortedDraws_length (l : List ℚ) : (sortedDraws l).length = l.length :=
  List.length_insertionSort _ l

/-- The empirical quantile is monotone in the requested level. -/
theorem quantileOf_mono (l : List ℚ) {q1 q2 : ℚ} (h : q1 ≤ q2) :
    quantileOf l q1 ≤ quantileOf l q2 := by
  rcases Nat.eq_zero_or_pos l.length with hn | hn
  · have hl : l = [] := List.length_eq_zero.mp hn
    subst hl
    simp [quantileOf, sortedDraws, List.insertionSort]
  · have hidx : quantileIdx l.length q1 ≤ quantileIdx l.length q2 := by
      unfold quantileIdx
      refine min_le_min (le_refl _) ?_
      refine Int.toNat_le_toNat ?_
      refine Int.floor_le_floor ?_
      exact mul_le_mul_of_nonneg_right h (Nat.cast_nonneg _)
    have hj : quantileIdx l.length q2 < (sortedDraws l).length := by
      rw [sortedDraws_length]
      have hmin : quantileIdx l.length q2 ≤ l.length - 1 := min_le_left _ _
      omega
    have hi : quantileIdx l.length q1 < (sortedDraws l).length :=
      lt_of_le_of_lt hidx hj
    unfold quantileOf
    rw [List.getD_eq_getElem _ _ hi, List.getD_eq_getElem _ _ hj]
    have hrel := List.Sorted.rel_get_of_le (sortedDraws_sorted l)
      (a := ⟨quantileIdx l.length q1, hi⟩) (b := ⟨quantileIdx l.length q2, hj⟩)
      (Fin.mk_le_mk.mpr hidx)
    simpa [List.get_eq_getElem] using hrel

/-- Claim C8 counterexample: on the degenerate draw list [5,5,5,5] the
alpha = 0.1 interval is not strictly narrower than the alpha = 0.05 one —
both have width zero. -/
theorem alphaStrictNarrowFails :
    ¬ intervalWidth [5, 5, 5, 5] (1 / 10) < intervalWidth [5, 5, 5, 5] (1 / 20) := by
  have hs : sortedDraws [5, 5, 5, 5] = [5, 5, 5, 5] := by
    simp [sortedDraws, List.insertionSort, List.orderedInsert]
  have hget : ∀ i : ℕ, i ≤ 3 → ([5, 5, 5, 5] : List ℚ).getD i 0 = 5 := by
    intro i hi
    interval_cases i <;> rfl
  have hq : ∀ qv : ℚ, quantileOf [5, 5, 5, 5] qv = 5 := by
    intro qv
    unfold quantileOf
    rw [hs]
    exact hget _ (min_le_left _ _)
  intro hcontra
  rw [intervalWidth, intervalWidth, credUpper, credUpper, credLower, credLower,
    hq, hq, hq, hq] at hcontra
  simp at hcontra

/-- Claim C8 (amended): a larger alpha yields credible intervals nested
within — no wider than — those of a smaller alpha on the same draws;
strict narrowing can fail on degenerate empirical distributions. -/
theorem alphaIntervalsNested (draws : List ℚ) (a1 a2 : ℚ) (h : a1 ≤ a2) :
    intervalWidth draws a2 ≤ intervalWidth draws a1 := by
  unfold intervalWidth credUpper credLower
  have hlow := quantileOf_mono draws (show a1 / 2 ≤ a2 / 2 by linarith)
  have hup := quantileOf_mono draws (show 1 - a2 / 2 ≤ 1 - a1 / 2 by linarith)
  exact sub_le_sub hup hlow

/-- Witness for claim C1: two three-point series agreeing before index 2
and differing at index 2 give identical smoothed means once masked. -/
theorem kalmanPostIndependence_wit :
    (∀ s : KState, kstep ⟨1, 1⟩ s none = ⟨s.m, s.P + 1⟩) ∧
    smoothedMeans ⟨1, 1⟩ ⟨0, 1⟩ (maskPost [1, 2, 3] 2) =
      smoothedMeans ⟨1, 1⟩ ⟨0, 1⟩ (maskPost [1, 2, 7] 2) :=
  kalmanPostIndependence ⟨1, 1⟩ ⟨0, 1⟩ 2 [1, 2, 3] [1, 2, 7] (by rfl)
    (by intro i hi; interval_cases i <;> rfl)

/-- Witness for claim C3: overlapping periods [0,10] and [5,20] on a
30-point series are rejected with ValidationError. -/
theorem invalidPeriodsRejected_wit :
    runCI (fun p => some p) ⟨List.replicate 30 (some 1), []⟩ ⟨0, 10⟩ ⟨5, 20⟩ =
      .error .validation :=
  invalidPeriodsRejected (fun p => some p) ⟨List.replicate 30 (some 1), []⟩
    ⟨0, 10⟩ ⟨5, 20⟩ (Or.inl (by unfold overlaps; decide))

/-- Witness for claim C5: three draws aggregated in two different
completion orders under run seed 7 give the same index-ordered output. -/
theorem pipelineDeterministic_wit :
    runSampled (fun s => ((s : ℚ))) 7 3 [2, 0, 1] =
      runSampled (fun s => ((s : ℚ))) 7 3 [1, 2, 0] ∧
    runSampled (fun s => ((s : ℚ))) 7 3 [2, 0, 1] =
      (List.range 3).map (fun i => some ((seedFor 7 i : ℚ))) :=
  pipelineDeterministic (fun s => ((s : ℚ))) 7 3 [2, 0, 1] [1, 2, 0]
    (by decide) (by decide)

/-- Witness for claim C7: pre-period [0,2] has mean 1 and variance 1, and
the recorded transform with scale 1 round-trips the series [5,7]. -/
theorem standardizeRoundTrip_wit :
    unstandardizeWith ⟨1, 1⟩ (standardizeWith ⟨1, 1⟩ [5, 7]) = [5, 7] :=
  standardizeRoundTrip [0, 2] [5, 7] ⟨1, 1⟩ (by norm_num [preMean])
    (by norm_num [preVar, preMean]) (by norm_num)

/-- Witness for claim C8 (amended): on draws [1,2,3,4] the alpha = 0.1
interval is no wider than the alpha = 0.05 interval. -/
theorem alphaIntervalsNested_wit :
    intervalWidth [1, 2, 3, 4] (1 / 10) ≤ intervalWidth [1, 2, 3, 4] (1 / 20) :=
  alphaIntervalsNested [1, 2, 3, 4] (1 / 20) (1 / 10) (by norm_num)

end CISpec
